import Mathlib

/-!
Shallow embedding of the SNES emulator core: the memory bus
(`src/core/memory/memory.js`, class `Memory`) and the 65C816 CPU
interpreter (class `CPU`), together with theorems checking the
specification's claims against these definitions.

Modelling conventions:
* JavaScript `Uint8Array` regions are modelled as total functions `ℕ → ℕ`;
  the source indexes them modulo their length, which is kept explicit here.
* JavaScript 32-bit integer operations `&`, `|`, `^`, `<<`, `>>` on the
  non-negative values that occur here coincide with `Nat` bitwise
  operations; `x & ~flag` on a non-negative `x` is `Nat.ldiff x flag`.
  A JavaScript `(x - 1) & 0xFFFF` that may see `x = 0` is written
  `(x + 0xFFFF) &&& 0xFFFF`, which agrees with it for every `x`.
* I/O handler callbacks live outside the bus; a registered read handler is
  modelled by the byte it returns (`ioRead`), and a write handler's effect,
  which touches only external device state, leaves the `Memory` state
  unchanged.
-/

/-- Cartridge mapper kind: `this.mapperType` in the source, `'lorom'` or `'hirom'`. -/
inductive MapperType
  | lorom
  | hirom
deriving DecidableEq

/-- A loaded cartridge image: `this.rom` (a `Uint8Array`) with its `length`. -/
structure ROMImage where
  data : ℕ → ℕ
  size : ℕ

/-- The region tags returned by the mapping functions (`'wram'`, `'rom'`,
`'sram'`, `'io'`, `'open'` in the source). -/
inductive Region
  | wram
  | rom
  | sram
  | ioreg
  | openBus
deriving DecidableEq

/-- Result of a mapping function: `{ type, addr }` in the source. -/
structure MappedAddr where
  type : Region
  addr : ℕ
deriving DecidableEq

/-- The memory bus state (class `Memory`): work RAM, save RAM, the optional
cartridge image, the PPU/APU-owned arrays, the active mapper kind and the
registered I/O read handlers. -/
structure Memory where
  wram : ℕ → ℕ
  sram : ℕ → ℕ
  rom : Option ROMImage
  vram : ℕ → ℕ
  cgram : ℕ → ℕ
  oam : ℕ → ℕ
  apuRam : ℕ → ℕ
  mapperType : MapperType
  ioRead : ℕ → Option ℕ

/-- `Memory.reset()`: zero-fills `wram`, `vram`, `cgram`, `oam` and `apuRam`;
`sram` and `rom` are not touched. -/
def Memory.reset (m : Memory) : Memory :=
  { m with
    wram := fun _ => 0
    vram := fun _ => 0
    cgram := fun _ => 0
    oam := fun _ => 0
    apuRam := fun _ => 0 }

/-- A printable-ASCII byte test, `c >= 0x20 && c <= 0x7E` in `validateHeader`. -/
def printableAscii (c : ℕ) : Bool :=
  decide (0x20 ≤ c ∧ c ≤ 0x7E)

/-- `Memory.validateHeader(offset)`: score a candidate cartridge header. -/
def Memory.validateHeader (rom : ROMImage) (offset : ℕ) : ℕ :=
  if offset + 0x30 > rom.size then 0 else
  let score1 := 0 + (if printableAscii (rom.data (offset + 0x10)) then 1 else 0)
  let score2 := score1 + (if printableAscii (rom.data (offset + 0x12)) then 1 else 0)
  let score3 := score2 + (if printableAscii (rom.data (offset + 0x13)) then 1 else 0)
  let score4 := score3 + (if printableAscii (rom.data (offset + 0x14)) then 1 else 0)
  let score5 := score4 + (if printableAscii (rom.data (offset + 0x15)) then 1 else 0)
  let score6 := score5 +
    (if 0x08 ≤ rom.data (offset + 0x17) ∧ rom.data (offset + 0x17) ≤ 0x0D then 2 else 0)
  let checksum := (rom.data (offset + 0x1F)) <<< 8 ||| rom.data (offset + 0x1E)
  let complement := (rom.data (offset + 0x1D)) <<< 8 ||| rom.data (offset + 0x1C)
  score6 + (if checksum ^^^ complement = 0xFFFF then 4 else 0)

/-- `Memory.detectMapper()`: pick the mapper kind from the two candidate
header locations; the image is `this.rom` (possibly still `null`). -/
def Memory.detectMapper (rom : Option ROMImage) : MapperType :=
  match rom with
  | none => MapperType.lorom
  | some r =>
    if r.size < 0x8000 then MapperType.lorom
    else
      let headerOffset := if r.size % 1024 = 512 then 512 else 0
      let loromScore := Memory.validateHeader r (0x7FC0 + headerOffset)
      let hiromScore := Memory.validateHeader r (0xFFC0 + headerOffset)
      if loromScore < hiromScore then MapperType.hirom else MapperType.lorom

/-- `Memory.mapLoROM(address)`. -/
def Memory.mapLoROM (address : ℕ) : MappedAddr :=
  let bank := (address >>> 16) &&& 0xFF
  let offset := address &&& 0xFFFF
  let normalizedBank := bank &&& 0x7F
  if 0x7E ≤ normalizedBank then
    { type := Region.wram, addr := (normalizedBank - 0x7E) * 0x10000 + offset }
  else if offset < 0x8000 ∧ normalizedBank < 0x40 then
    if offset < 0x2000 then
      { type := Region.wram, addr := offset }
    else if 0x2000 ≤ offset ∧ offset < 0x6000 then
      { type := Region.ioreg, addr := offset }
    else
      { type := Region.sram, addr := offset - 0x6000 }
  else if 0x8000 ≤ offset then
    { type := Region.rom, addr := normalizedBank * 0x8000 + (offset - 0x8000) }
  else if 0x70 ≤ normalizedBank ∧ normalizedBank < 0x7E ∧ offset < 0x8000 then
    { type := Region.sram, addr := (normalizedBank - 0x70) * 0x8000 + offset }
  else
    { type := Region.openBus, addr := 0 }

/-- `Memory.mapHiROM(address)`. -/
def Memory.mapHiROM (address : ℕ) : MappedAddr :=
  let bank := (address >>> 16) &&& 0xFF
  let offset := address &&& 0xFFFF
  let normalizedBank := bank &&& 0x7F
  if 0x7E ≤ normalizedBank then
    { type := Region.wram, addr := (normalizedBank - 0x7E) * 0x10000 + offset }
  else if normalizedBank < 0x40 ∧ offset < 0x8000 then
    if offset < 0x2000 then
      { type := Region.wram, addr := offset }
    else if 0x2000 ≤ offset ∧ offset < 0x6000 then
      { type := Region.ioreg, addr := offset }
    else
      { type := Region.sram, addr := offset - 0x6000 }
  else if 0x40 ≤ normalizedBank ∨ 0x8000 ≤ offset then
    { type := Region.rom
      addr :=
        if normalizedBank < 0x40 then normalizedBank * 0x10000 + offset
        else (normalizedBank - 0x40) * 0x10000 + offset }
  else
    { type := Region.openBus, addr := 0 }

/-- `this.mapper(address)`: the bound mapping function chosen by `setupMapper`. -/
def Memory.mapper (m : Memory) (address : ℕ) : MappedAddr :=
  match m.mapperType with
  | MapperType.lorom => Memory.mapLoROM address
  | MapperType.hirom => Memory.mapHiROM address

/-- `Memory.readIO(address)` for the bus state: a registered read handler
wins; otherwise the documented per-address defaults apply. -/
def Memory.readIOReg (m : Memory) (address : ℕ) : ℕ :=
  match m.ioRead address with
  | some v => v
  | none =>
    if address = 0x4210 then 0x02
    else if address = 0x4211 then 0x00
    else if address = 0x4212 then 0x00
    else 0xFF

/-- `Memory.read(address)`. -/
def Memory.read (m : Memory) (address : ℕ) : ℕ :=
  let mapped := Memory.mapper m address
  match mapped.type with
  | Region.wram => m.wram (mapped.addr % 0x20000)
  | Region.rom =>
    match m.rom with
    | some r => if mapped.addr < r.size then r.data mapped.addr else 0xFF
    | none => 0xFF
  | Region.sram => m.sram (mapped.addr % 0x20000)
  | Region.ioreg => Memory.readIOReg m mapped.addr
  | Region.openBus => 0xFF

/-- `Memory.read16(address)`: little-endian composition of two reads. -/
def Memory.read16 (m : Memory) (address : ℕ) : ℕ :=
  let low := Memory.read m address
  let high := Memory.read m (address + 1)
  (high <<< 8) ||| low

/-- `Memory.write(address, value)`: ROM and open bus are read-only; a write
into the I/O window goes to an external handler callback and leaves the bus
arrays unchanged. -/
def Memory.write (m : Memory) (address value : ℕ) : Memory :=
  let mapped := Memory.mapper m address
  match mapped.type with
  | Region.wram => { m with wram := Function.update m.wram (mapped.addr % 0x20000) (value &&& 0xFF) }
  | Region.sram => { m with sram := Function.update m.sram (mapped.addr % 0x20000) (value &&& 0xFF) }
  | Region.ioreg => m
  | Region.rom => m
  | Region.openBus => m

/-! The bit masks of the `P` status register (`CPUFlags` in the source). -/

namespace CPUFlags

def CARRY : ℕ := 0x01

def ZERO : ℕ := 0x02

def IRQ_DISABLE : ℕ := 0x04

def DECIMAL : ℕ := 0x08

def INDEX_8BIT : ℕ := 0x10

def MEMORY_8BIT : ℕ := 0x20

def OVERFLOW : ℕ := 0x40

def NEGATIVE : ℕ := 0x80

end CPUFlags

/-- The 65C816 CPU state (class `CPU`), including its injected memory bus. -/
structure CPU where
  A : ℕ
  X : ℕ
  Y : ℕ
  S : ℕ
  D : ℕ
  PC : ℕ
  PBR : ℕ
  DBR : ℕ
  P : ℕ
  emulationMode : Bool
  cycles : ℕ
  nmiPending : Bool
  irqPending : Bool
  memory : Memory

/-- `CPU.getFlag(flag)`: `(this.P & flag) !== 0`. -/
def CPU.getFlag (cpu : CPU) (flag : ℕ) : Bool :=
  decide (cpu.P &&& flag ≠ 0)

/-- `CPU.setFlag(flag, value)`: `P |= flag` / `P &= ~flag`. -/
def CPU.setFlag (cpu : CPU) (flag : ℕ) (value : Bool) : CPU :=
  { cpu with P := if value then cpu.P ||| flag else Nat.ldiff cpu.P flag }

/-- `CPU.updateZeroFlag(value)` (mask depends on the accumulator-width flag). -/
def CPU.updateZeroFlag (cpu : CPU) (value : ℕ) : CPU :=
  let mask := if CPU.getFlag cpu CPUFlags.MEMORY_8BIT then 0xFF else 0xFFFF
  CPU.setFlag cpu CPUFlags.ZERO (decide (value &&& mask = 0))

/-- `CPU.updateNegativeFlag(value)`. -/
def CPU.updateNegativeFlag (cpu : CPU) (value : ℕ) : CPU :=
  let mask := if CPU.getFlag cpu CPUFlags.MEMORY_8BIT then 0x80 else 0x8000
  CPU.setFlag cpu CPUFlags.NEGATIVE (decide (value &&& mask ≠ 0))

/-- `CPU.updateNZFlags(value)`. -/
def CPU.updateNZFlags (cpu : CPU) (value : ℕ) : CPU :=
  CPU.updateNegativeFlag (CPU.updateZeroFlag cpu value) value

/-- `CPU.read8(address)`: one bus read, one cycle. -/
def CPU.read8 (cpu : CPU) (address : ℕ) : ℕ × CPU :=
  (Memory.read cpu.memory address, { cpu with cycles := cpu.cycles + 1 })

/-- `CPU.read16(address)`. -/
def CPU.read16 (cpu : CPU) (address : ℕ) : ℕ × CPU :=
  let r1 := CPU.read8 cpu address
  let r2 := CPU.read8 r1.2 (address + 1)
  ((r2.1 <<< 8) ||| r1.1, r2.2)

/-- `CPU.write8(address, value)`: one bus write, one cycle. -/
def CPU.write8 (cpu : CPU) (address value : ℕ) : CPU :=
  { cpu with
    cycles := cpu.cycles + 1
    memory := Memory.write cpu.memory address (value &&& 0xFF) }

/-- `CPU.write16(address, value)`. -/
def CPU.write16 (cpu : CPU) (address value : ℕ) : CPU :=
  CPU.write8 (CPU.write8 cpu address (value &&& 0xFF)) (address + 1) ((value >>> 8) &&& 0xFF)

/-- `CPU.push8(value)`: write at `S`, then `S = (S - 1) & 0xFFFF`. -/
def CPU.push8 (cpu : CPU) (value : ℕ) : CPU :=
  let cpu1 := CPU.write8 cpu cpu.S (value &&& 0xFF)
  { cpu1 with S := (cpu1.S + 0xFFFF) &&& 0xFFFF }

/-- `CPU.push16(value)`: high byte first, then low byte. -/
def CPU.push16 (cpu : CPU) (value : ℕ) : CPU :=
  CPU.push8 (CPU.push8 cpu ((value >>> 8) &&& 0xFF)) (value &&& 0xFF)

/-- `CPU.pop8()`: `S = (S + 1) & 0xFFFF`, then read at `S`. -/
def CPU.pop8 (cpu : CPU) : ℕ × CPU :=
  let cpu1 := { cpu with S := (cpu.S + 1) &&& 0xFFFF }
  CPU.read8 cpu1 cpu1.S

/-- `CPU.pop16()`: low byte first, then high byte. -/
def CPU.pop16 (cpu : CPU) : ℕ × CPU :=
  let r1 := CPU.pop8 cpu
  let r2 := CPU.pop8 r1.2
  ((r2.1 <<< 8) ||| r1.1, r2.2)

/-- `CPU.handleNMI()`. -/
def CPU.handleNMI (cpu : CPU) : CPU :=
  let cpu1 := CPU.push8 cpu cpu.PBR
  let cpu2 := CPU.push16 cpu1 cpu1.PC
  let cpu3 := CPU.push8 cpu2 cpu2.P
  let cpu4 := CPU.setFlag cpu3 CPUFlags.IRQ_DISABLE true
  let vector := if cpu4.emulationMode then 0xFFFA else 0xFFEA
  let newPC := Memory.read16 cpu4.memory vector
  let cpu5 := { cpu4 with PC := newPC, PBR := 0 }
  { cpu5 with cycles := cpu5.cycles + 7 }

/-- `CPU.handleIRQ()`. -/
def CPU.handleIRQ (cpu : CPU) : CPU :=
  let cpu1 := CPU.push8 cpu cpu.PBR
  let cpu2 := CPU.push16 cpu1 cpu1.PC
  let cpu3 := CPU.push8 cpu2 cpu2.P
  let cpu4 := CPU.setFlag cpu3 CPUFlags.IRQ_DISABLE true
  let vector := if cpu4.emulationMode then 0xFFFE else 0xFFEE
  let newPC := Memory.read16 cpu4.memory vector
  let cpu5 := { cpu4 with PC := newPC, PBR := 0 }
  { cpu5 with cycles := cpu5.cycles + 7 }

/-- `CPU.reset()` (the `src/unnamed` CPU with IPL-HLE vector validation):
registers to their power-on values, then the reset vector from `$FFFC`,
falling back to `$8000` when the vector reads `0x0000` or `0xFFFF`. -/
def CPU.reset (mem : Memory) : CPU :=
  let resetVector := Memory.read16 mem 0xFFFC
  { A := 0
    X := 0
    Y := 0
    S := 0x01FF
    D := 0
    PBR := 0
    DBR := 0
    P := 0x34
    emulationMode := true
    cycles := 0
    nmiPending := false
    irqPending := false
    memory := mem
    PC := if resetVector = 0x0000 ∨ resetVector = 0xFFFF then 0x8000 else resetVector }

/-- `CPU.ADC(addr)`. -/
def CPU.ADC (cpu : CPU) (addr : ℕ) : CPU :=
  let r := if CPU.getFlag cpu CPUFlags.MEMORY_8BIT then CPU.read8 cpu addr else CPU.read16 cpu addr
  let value := r.1
  let cpu1 := r.2
  let carry := if CPU.getFlag cpu1 CPUFlags.CARRY then 1 else 0
  let result := cpu1.A + value + carry
  let mask := if CPU.getFlag cpu1 CPUFlags.MEMORY_8BIT then 0xFF else 0xFFFF
  let signBit := if CPU.getFlag cpu1 CPUFlags.MEMORY_8BIT then 0x80 else 0x8000
  let cpu2 := CPU.setFlag cpu1 CPUFlags.CARRY (decide (result > mask))
  let cpu3 := CPU.setFlag cpu2
    CPUFlags.OVERFLOW (decide ((cpu2.A ^^^ result) &&& (value ^^^ result) &&& signBit ≠ 0))
  let cpu4 := { cpu3 with A := result &&& mask }
  CPU.updateNZFlags cpu4 cpu4.A

/-- Opcode `0xFB` (XCE — exchange carry and emulation). -/
def CPU.opXCE (cpu : CPU) : CPU :=
  let carry := CPU.getFlag cpu CPUFlags.CARRY
  let cpu1 := CPU.setFlag cpu CPUFlags.CARRY cpu.emulationMode
  let cpu2 := { cpu1 with emulationMode := carry }
  let cpu3 :=
    if cpu2.emulationMode then
      let cpu3a := CPU.setFlag cpu2 CPUFlags.MEMORY_8BIT true
      let cpu3b := CPU.setFlag cpu3a CPUFlags.INDEX_8BIT true
      { cpu3b with
        S := 0x0100 ||| (cpu3b.S &&& 0xFF)
        X := cpu3b.X &&& 0xFF
        Y := cpu3b.Y &&& 0xFF }
    else cpu2
  { cpu3 with cycles := cpu3.cycles + 2 }

/-- Opcode `0x9A` (TXS — transfer X to stack pointer). -/
def CPU.opTXS (cpu : CPU) : CPU :=
  let cpu1 :=
    if cpu.emulationMode then { cpu with S := 0x0100 ||| (cpu.X &&& 0xFF) }
    else { cpu with S := cpu.X }
  { cpu1 with cycles := cpu1.cycles + 2 }

/-- The opcode dispatch table, restricted to the opcodes the claims below
exercise; every other entry takes the source's missing-entry path in
`executeOpcode` (none of the theorems below ever reaches that path). -/
def CPU.opcodeTable (opcode : ℕ) : Option (CPU → CPU) :=
  if opcode = 0xFB then some CPU.opXCE
  else if opcode = 0x9A then some CPU.opTXS
  else none

/-- `CPU.executeOpcode(opcode)`: dispatch, or the unimplemented-opcode
fallback that charges the minimum two cycles. -/
def CPU.executeOpcode (cpu : CPU) (opcode : ℕ) : CPU :=
  match CPU.opcodeTable opcode with
  | some handler => handler cpu
  | none => { cpu with cycles := cpu.cycles + 2 }

/-- `CPU.step()`: returns the number of cycles consumed and the new state. -/
def CPU.step (cpu : CPU) : ℕ × CPU :=
  let startCycles := cpu.cycles
  if cpu.nmiPending then
    let cpu1 := CPU.handleNMI cpu
    let cpu2 := { cpu1 with nmiPending := false }
    (cpu2.cycles - startCycles, cpu2)
  else if cpu.irqPending && !(CPU.getFlag cpu CPUFlags.IRQ_DISABLE) then
    let cpu1 := CPU.handleIRQ cpu
    (cpu1.cycles - startCycles, cpu1)
  else
    let r := CPU.read8 cpu cpu.PC
    let cpu1 := { r.2 with PC := (r.2.PC + 1) &&& 0xFFFF }
    let cpu2 := CPU.executeOpcode cpu1 r.1
    (cpu2.cycles - startCycles, cpu2)

/-- An all-zero bus with no cartridge and no registered I/O handlers. -/
def zeroMemory : Memory :=
  { wram := fun _ => 0
    sram := fun _ => 0
    rom := none
    vram := fun _ => 0
    cgram := fun _ => 0
    oam := fun _ => 0
    apuRam := fun _ => 0
    mapperType := MapperType.lorom
    ioRead := fun _ => none }

/-- A concrete CPU state over `zeroMemory` used by witnesses below. -/
def baseCPU : CPU :=
  { A := 0
    X := 0
    Y := 0
    S := 0x01FF
    D := 0
    PC := 0
    PBR := 0
    DBR := 0
    P := 0x34
    emulationMode := true
    cycles := 0
    nmiPending := false
    irqPending := false
    memory := zeroMemory }

/-- A cartridge image with a valid checksum/complement pair only in the
LoROM header location (`0x7FDE/0x7FDF` hold `0xFF`, the complement bytes
hold `0`); the HiROM header location lies past the end of the image. -/
def romLoValid : ROMImage :=
  { data := fun i => if i = 0x7FDE then 0xFF else if i = 0x7FDF then 0xFF else 0
    size := 0x8000 }

/-- A cartridge image with a valid checksum/complement pair only in the
HiROM header location (`0xFFDE/0xFFDF` hold `0xFF`). -/
def romHiValid : ROMImage :=
  { data := fun i => if i = 0xFFDE then 0xFF else if i = 0xFFDF then 0xFF else 0
    size := 0x10000 }

/-! ### Arithmetic and bit-level helper lemmas -/

theorem and_FF_eq_mod (v : ℕ) : v &&& 0xFF = v % 0x100 := by
  have h := Nat.and_pow_two_sub_one_eq_mod v 8
  norm_num at h
  exact h

theorem and_FFFF_eq_mod (v : ℕ) : v &&& 0xFFFF = v % 0x10000 := by
  have h := Nat.and_pow_two_sub_one_eq_mod v 16
  norm_num at h
  exact h

theorem and_7F_eq_mod (v : ℕ) : v &&& 0x7F = v % 0x80 := by
  have h := Nat.and_pow_two_sub_one_eq_mod v 7
  norm_num at h
  exact h

theorem shiftRight16_eq (v : ℕ) : v >>> 16 = v / 0x10000 := by
  rw [Nat.shiftRight_eq_div_pow]

theorem shiftRight8_eq (v : ℕ) : v >>> 8 = v / 0x100 := by
  rw [Nat.shiftRight_eq_div_pow]

/-- Reassembling the high and low byte of a 16-bit value. -/
theorem byte_recompose (v : ℕ) (h : v < 0x10000) :
    (((v >>> 8) &&& 0xFF) <<< 8) ||| (v &&& 0xFF) = v := by
  have h8 : (v >>> 8) &&& 0xFF = v >>> 8 := by
    rw [and_FF_eq_mod, shiftRight8_eq]
    omega
  rw [h8]
  apply Nat.eq_of_testBit_eq
  intro i
  rw [Nat.testBit_lor, Nat.testBit_shiftLeft, Nat.testBit_shiftRight, Nat.testBit_land]
  have hFF : Nat.testBit 0xFF i = decide (i < 8) := by
    rcases Nat.lt_or_ge i 8 with hi | hi
    · interval_cases i <;> decide
    · simp [Nat.testBit_lt_two_pow (show (0xFF : ℕ) < 2 ^ i from
        lt_of_lt_of_le (by norm_num) (Nat.pow_le_pow_right (by norm_num) hi)), hi]
  rw [hFF]
  rcases Nat.lt_or_ge i 8 with hi | hi
  · simp [Nat.not_le.mpr hi, hi]
  · have : 8 + (i - 8) = i := by omega
    simp [hi, this, Nat.not_lt.mpr hi]

/-! ### Status-flag helper lemmas -/

theorem getFlag_eq_testBit (cpu : CPU) (k : ℕ) :
    CPU.getFlag cpu (2 ^ k) = cpu.P.testBit k := by
  unfold CPU.getFlag
  rw [Nat.and_two_pow]
  have h2 : (2 : ℕ) ^ k ≠ 0 := Nat.pos_iff_ne_zero.mp (Nat.pos_pow_of_pos k (by norm_num))
  cases h : cpu.P.testBit k <;> simp [h, h2]

theorem setFlag_P_testBit (cpu : CPU) (k j : ℕ) (b : Bool) :
    ((CPU.setFlag cpu (2 ^ k) b).P).testBit j = if j = k then b else cpu.P.testBit j := by
  unfold CPU.setFlag
  cases b <;> by_cases hj : j = k <;>
    simp [hj, Nat.testBit_lor, Nat.testBit_ldiff, Nat.testBit_two_pow_self] <;>
    simp [Nat.testBit_two_pow_of_ne (Ne.symm hj)]

theorem getFlag_setFlag_self (cpu : CPU) (k : ℕ) (b : Bool) :
    CPU.getFlag (CPU.setFlag cpu (2 ^ k) b) (2 ^ k) = b := by
  rw [getFlag_eq_testBit, setFlag_P_testBit]
  simp

theorem getFlag_setFlag_ne (cpu : CPU) (j k : ℕ) (b : Bool) (h : j ≠ k) :
    CPU.getFlag (CPU.setFlag cpu (2 ^ k) b) (2 ^ j) = CPU.getFlag cpu (2 ^ j) := by
  rw [getFlag_eq_testBit, getFlag_eq_testBit, setFlag_P_testBit, if_neg h]

theorem and_pow_ne_iff (p k : ℕ) : (p &&& 2 ^ k ≠ 0) ↔ p.testBit k := by
  rw [Nat.and_two_pow]
  have h2 : (2 : ℕ) ^ k ≠ 0 := Nat.pos_iff_ne_zero.mp (Nat.pos_pow_of_pos k (by norm_num))
  cases h : p.testBit k <;> simp [h, h2]

theorem and_1_ne_iff (p : ℕ) : (p &&& 1 ≠ 0) ↔ p.testBit 0 := and_pow_ne_iff p 0

theorem and_2_ne_iff (p : ℕ) : (p &&& 2 ≠ 0) ↔ p.testBit 1 := and_pow_ne_iff p 1

theorem and_4_ne_iff (p : ℕ) : (p &&& 4 ≠ 0) ↔ p.testBit 2 := and_pow_ne_iff p 2

theorem and_8_ne_iff (p : ℕ) : (p &&& 8 ≠ 0) ↔ p.testBit 3 := and_pow_ne_iff p 3

theorem and_16_ne_iff (p : ℕ) : (p &&& 16 ≠ 0) ↔ p.testBit 4 := and_pow_ne_iff p 4

theorem and_32_ne_iff (p : ℕ) : (p &&& 32 ≠ 0) ↔ p.testBit 5 := and_pow_ne_iff p 5

theorem and_64_ne_iff (p : ℕ) : (p &&& 64 ≠ 0) ↔ p.testBit 6 := and_pow_ne_iff p 6

theorem and_128_ne_iff (p : ℕ) : (p &&& 128 ≠ 0) ↔ p.testBit 7 := and_pow_ne_iff p 7

theorem ldiff_one_mod_two (p : ℕ) : Nat.ldiff p 1 % 2 = 0 := by
  have h : (Nat.ldiff p 1).testBit 0 = false := by
    rw [Nat.testBit_ldiff]
    simp
  rw [Nat.testBit_zero] at h
  simp at h
  omega

/-! ### Memory-mapping helper lemmas -/

/-- Under LoROM, a bank-0 address below `0x2000` maps to work RAM at itself. -/
theorem mapLoROM_wram_low (a : ℕ) (h : a < 0x2000) :
    Memory.mapLoROM a = { type := Region.wram, addr := a } := by
  have h16 : a >>> 16 = 0 := by
    rw [shiftRight16_eq]
    omega
  have hoff : a &&& 0xFFFF = a := by
    rw [and_FFFF_eq_mod]
    omega
  simp only [Memory.mapLoROM, h16, hoff]
  norm_num
  rw [if_pos (by omega : a < 0x8000), if_pos h]

theorem mapper_wram_low (m : Memory) (hmap : m.mapperType = MapperType.lorom)
    (a : ℕ) (h : a < 0x2000) :
    Memory.mapper m a = { type := Region.wram, addr := a } := by
  unfold Memory.mapper
  rw [hmap, mapLoROM_wram_low a h]

/-! ### Write/read interaction lemmas -/

theorem write_rom_eq (m : Memory) (a v : ℕ) : (Memory.write m a v).rom = m.rom := by
  unfold Memory.write
  cases h : (Memory.mapper m a).type <;> simp [h]

theorem write_mapperType_eq (m : Memory) (a v : ℕ) :
    (Memory.write m a v).mapperType = m.mapperType := by
  unfold Memory.write
  cases h : (Memory.mapper m a).type <;> simp [h]

theorem write_ioRead_eq (m : Memory) (a v : ℕ) :
    (Memory.write m a v).ioRead = m.ioRead := by
  unfold Memory.write
  cases h : (Memory.mapper m a).type <;> simp [h]

theorem write_sram_eq_of_not_sram (m : Memory) (a v : ℕ)
    (h : (Memory.mapper m a).type ≠ Region.sram) :
    (Memory.write m a v).sram = m.sram := by
  unfold Memory.write
  cases htype : (Memory.mapper m a).type <;> simp [htype]
  exact absurd htype h

/-- A read that resolves to the ROM region only consults the image and the
mapper kind, so it is unaffected by any write. -/
theorem read_rom_congr (m m' : Memory) (b : ℕ)
    (hmt : m'.mapperType = m.mapperType) (hrom : m'.rom = m.rom)
    (hb : (Memory.mapper m b).type = Region.rom) :
    Memory.read m' b = Memory.read m b := by
  have hmapper : Memory.mapper m' b = Memory.mapper m b := by
    unfold Memory.mapper
    rw [hmt]
  rcases hmm : Memory.mapper m b with ⟨t, ad⟩
  rw [hmm] at hb
  simp only at hb
  subst hb
  unfold Memory.read
  rw [hmapper, hmm]
  simp [hrom]

theorem read_write_of_rom (m : Memory) (a v b : ℕ)
    (hb : (Memory.mapper m b).type = Region.rom) :
    Memory.read (Memory.write m a v) b = Memory.read m b :=
  read_rom_congr m (Memory.write m a v) b (write_mapperType_eq m a v) (write_rom_eq m a v) hb

/-- Reading back through work RAM after a work-RAM write (LoROM low bank). -/
theorem read_write_wram_low (m : Memory) (hmap : m.mapperType = MapperType.lorom)
    (x y v : ℕ) (hx : x < 0x2000) (hy : y < 0x2000) :
    Memory.read (Memory.write m x v) y = if y = x then v &&& 0xFF else Memory.read m y := by
  have hmx := mapper_wram_low m hmap x hx
  have hmy := mapper_wram_low m hmap y hy
  have hmap' : (Memory.write m x v).mapperType = MapperType.lorom := by
    rw [write_mapperType_eq, hmap]
  have hmy' := mapper_wram_low (Memory.write m x v) hmap' y hy
  unfold Memory.read
  rw [hmy', hmy]
  unfold Memory.write
  rw [hmx]
  simp only [Function.update]
  have hxm : x % 0x20000 = x := Nat.mod_eq_of_lt (by omega)
  have hym : y % 0x20000 = y := Nat.mod_eq_of_lt (by omega)
  rw [hxm, hym]
  by_cases hxy : y = x <;> simp [hxy]

/-! ### Claim theorems -/

/-- C10: `Memory.reset()` zero-fills the work-RAM, video-RAM (VRAM, CGRAM,
OAM) and audio-RAM arrays, and leaves the save-RAM array and the loaded
cartridge ROM image byte-for-byte unchanged. -/
theorem memory_reset_spares_sram_and_rom (m : Memory) :
    (∀ i, (Memory.reset m).wram i = 0) ∧
    (∀ i, (Memory.reset m).vram i = 0) ∧
    (∀ i, (Memory.reset m).cgram i = 0) ∧
    (∀ i, (Memory.reset m).oam i = 0) ∧
    (∀ i, (Memory.reset m).apuRam i = 0) ∧
    (Memory.reset m).sram = m.sram ∧
    (Memory.reset m).rom = m.rom :=
  ⟨fun _ => rfl, fun _ => rfl, fun _ => rfl, fun _ => rfl, fun _ => rfl, rfl, rfl⟩

/-- C3: `CPU.reset()` reads the 16-bit little-endian reset vector from bus
address `0xFFFC` and sets PC to it, substituting the fallback `0x8000`
exactly when the vector reads `0x0000` or `0xFFFF`; the embedding is a
total function, reflecting that `reset` never throws. -/
theorem reset_vector_fallback (mem : Memory) :
    (CPU.reset mem).PC =
      (if Memory.read16 mem 0xFFFC = 0x0000 ∨ Memory.read16 mem 0xFFFC = 0xFFFF
       then 0x8000
       else Memory.read16 mem 0xFFFC) := rfl

/-- C5: writing to an address that the active mapping resolves to the ROM
region leaves the whole bus state unchanged; a subsequent read returns the
pre-write value (the image byte when the mapped offset is within the image,
the open-bus `0xFF` past its end), and therefore never the written value
unless that value already equals the pre-write one. -/
theorem rom_write_immutable (m : Memory) (addr v : ℕ)
    (h : (Memory.mapper m addr).type = Region.rom) :
    Memory.write m addr v = m ∧
    Memory.read (Memory.write m addr v) addr = Memory.read m addr ∧
    Memory.read m addr =
      (match m.rom with
       | some r =>
         if (Memory.mapper m addr).addr < r.size then r.data ((Memory.mapper m addr).addr)
         else 0xFF
       | none => 0xFF) ∧
    (Memory.read m addr ≠ v → Memory.read (Memory.write m addr v) addr ≠ v) := by
  have hw : Memory.write m addr v = m := by
    unfold Memory.write
    rcases hmm : Memory.mapper m addr with ⟨t, ad⟩
    rw [hmm] at h
    simp only at h
    subst h
    simp
  refine ⟨hw, by rw [hw], ?_, fun hne => by rw [hw]; exact hne⟩
  unfold Memory.read
  rcases hmm : Memory.mapper m addr with ⟨t, ad⟩
  rw [hmm] at h
  simp only at h
  subst h
  simp

/-- C5 witness: address `0x8000` maps to ROM under LoROM; a write there is
discarded (no cartridge is loaded, so the read gives the open-bus `0xFF`). -/
theorem rom_write_immutable_witness :
    (Memory.mapper zeroMemory 0x8000).type = Region.rom ∧
    Memory.write zeroMemory 0x8000 0x42 = zeroMemory ∧
    Memory.read zeroMemory 0x8000 = 0xFF :=
  ⟨by decide, (rom_write_immutable zeroMemory 0x8000 0x42 (by decide)).1, by
    have h := (rom_write_immutable zeroMemory 0x8000 0x42 (by decide)).2.2.1
    simpa using h⟩

/-- C7 (amended): a read of an I/O-window address with no registered handler
returns the open-bus `0xFF` except at the three fixed-pattern status
registers: `0x4210` (NMI flag, `0x02`), `0x4211` (IRQ/timer flag, `0x00`)
and `0x4212` (screen/joypad status, `0x00`). -/
theorem io_open_bus_defaults (m : Memory) (addr : ℕ)
    (hio : (Memory.mapper m addr).type = Region.ioreg)
    (hnone : m.ioRead ((Memory.mapper m addr).addr) = none) :
    Memory.read m addr =
      (if (Memory.mapper m addr).addr = 0x4210 then 0x02
       else if (Memory.mapper m addr).addr = 0x4211 then 0x00
       else if (Memory.mapper m addr).addr = 0x4212 then 0x00
       else 0xFF) := by
  unfold Memory.read Memory.readIOReg
  rcases hmm : Memory.mapper m addr with ⟨t, ad⟩
  rw [hmm] at hio hnone
  simp only at hio
  subst hio
  simp only at hnone
  simp [hnone]

/-- C7 witness: the unregistered I/O address `0x2100` reads as open bus. -/
theorem io_open_bus_defaults_witness :
    (Memory.mapper zeroMemory 0x2100).type = Region.ioreg ∧
    Memory.read zeroMemory 0x2100 = 0xFF :=
  ⟨by decide, by
    have h := io_open_bus_defaults zeroMemory 0x2100 (by decide) (by decide)
    simpa using h⟩

/-- C7 counterexample: the unregistered I/O address `0x4211` is not among
the two fixed-pattern registers the claim lists, yet it reads `0x00`, not
the open-bus `0xFF`. -/
theorem io_4211_not_open_bus :
    (Memory.mapper zeroMemory 0x4211).type = Region.ioreg ∧
    zeroMemory.ioRead 0x4211 = none ∧
    (0x4211 : ℕ) ≠ 0x4210 ∧
    (0x4211 : ℕ) ≠ 0x4212 ∧
    Memory.read zeroMemory 0x4211 = 0x00 ∧
    Memory.read zeroMemory 0x4211 ≠ 0xFF := by decide

/-- C6: header scoring awards +1 for a printable maker-code byte, +1 for
each of four printable game-code bytes, +2 for a plausible ROM-size byte
and +4 for a checksum/complement pair XOR-ing to `0xFFFF`; the scheme with
the higher score wins with ties favoring LoROM; concretely, an image whose
only valid checksum pair sits in the LoROM header detects as LoROM, and
moving the valid pair to the HiROM header flips the result. -/
theorem scheme_detection (r : ROMImage) (hsize : 0x8000 ≤ r.size) :
    (∀ off, Memory.validateHeader r off =
      if r.size < off + 0x30 then 0
      else
        (if printableAscii (r.data (off + 0x10)) then 1 else 0)
        + (if printableAscii (r.data (off + 0x12)) then 1 else 0)
        + (if printableAscii (r.data (off + 0x13)) then 1 else 0)
        + (if printableAscii (r.data (off + 0x14)) then 1 else 0)
        + (if printableAscii (r.data (off + 0x15)) then 1 else 0)
        + (if 0x08 ≤ r.data (off + 0x17) ∧ r.data (off + 0x17) ≤ 0x0D then 2 else 0)
        + (if ((r.data (off + 0x1F)) <<< 8 ||| r.data (off + 0x1E)) ^^^
               ((r.data (off + 0x1D)) <<< 8 ||| r.data (off + 0x1C)) = 0xFFFF
           then 4 else 0)) ∧
    Memory.detectMapper (some r) =
      (if Memory.validateHeader r (0x7FC0 + (if r.size % 1024 = 512 then 512 else 0)) <
          Memory.validateHeader r (0xFFC0 + (if r.size % 1024 = 512 then 512 else 0))
       then MapperType.hirom
       else MapperType.lorom) ∧
    Memory.detectMapper (some romLoValid) = MapperType.lorom ∧
    Memory.detectMapper (some romHiValid) = MapperType.hirom := by
  refine ⟨fun off => ?_, ?_, by decide, by decide⟩
  · unfold Memory.validateHeader
    split
    · rfl
    · simp [Nat.add_assoc]
  · simp only [Memory.detectMapper]
    rw [if_neg (show ¬ r.size < 0x8000 by omega)]

/-- C6 witness: the LoROM-valid image satisfies the size hypothesis and
detects as LoROM. -/
theorem scheme_detection_witness :
    0x8000 ≤ romLoValid.size ∧ Memory.detectMapper (some romLoValid) = MapperType.lorom :=
  ⟨by decide, (scheme_detection romLoValid (by decide)).2.2.1⟩

/-- C4: XCE (opcode 0xFB) swaps the Carry flag with `emulationMode`; on a
transition into emulation mode it forces the Accumulator-width and
Index-width flags to 8-bit, sets `S` to `0x0100 ||| (S &&& 0xFF)` and
truncates X and Y to their low bytes; on a transition out of emulation mode
no register changes except Carry (set from the old `emulationMode`) and
`emulationMode` itself. -/
theorem xce_swap_and_mode_transitions (cpu : CPU) :
    (CPU.getFlag (CPU.opXCE cpu) CPUFlags.CARRY = cpu.emulationMode ∧
     (CPU.opXCE cpu).emulationMode = CPU.getFlag cpu CPUFlags.CARRY) ∧
    (cpu.emulationMode = false → CPU.getFlag cpu CPUFlags.CARRY = true →
      (CPU.opXCE cpu).emulationMode = true ∧
      CPU.getFlag (CPU.opXCE cpu) CPUFlags.MEMORY_8BIT = true ∧
      CPU.getFlag (CPU.opXCE cpu) CPUFlags.INDEX_8BIT = true ∧
      (CPU.opXCE cpu).S = 0x0100 ||| (cpu.S &&& 0xFF) ∧
      (CPU.opXCE cpu).X = cpu.X &&& 0xFF ∧
      (CPU.opXCE cpu).Y = cpu.Y &&& 0xFF) ∧
    (cpu.emulationMode = true → CPU.getFlag cpu CPUFlags.CARRY = false →
      (CPU.opXCE cpu).emulationMode = false ∧
      (CPU.opXCE cpu).A = cpu.A ∧
      (CPU.opXCE cpu).X = cpu.X ∧
      (CPU.opXCE cpu).Y = cpu.Y ∧
      (CPU.opXCE cpu).S = cpu.S ∧
      (CPU.opXCE cpu).D = cpu.D ∧
      (CPU.opXCE cpu).PC = cpu.PC ∧
      (CPU.opXCE cpu).PBR = cpu.PBR ∧
      (CPU.opXCE cpu).DBR = cpu.DBR ∧
      (CPU.opXCE cpu).P = cpu.P ||| CPUFlags.CARRY ∧
      (CPU.opXCE cpu).memory = cpu.memory) := by
  refine ⟨⟨?_, ?_⟩, fun hE hC => ?_, fun hE hC => ?_⟩
  · cases hE : cpu.emulationMode <;> cases hC : CPU.getFlag cpu CPUFlags.CARRY <;>
      simp only [CPU.opXCE, hC, hE] <;>
      simp +decide [CPU.setFlag, CPU.getFlag, CPUFlags.CARRY, CPUFlags.MEMORY_8BIT,
        CPUFlags.INDEX_8BIT, and_1_ne_iff, Nat.testBit_lor, Nat.testBit_ldiff,
        ldiff_one_mod_two]
  · cases hE : cpu.emulationMode <;> cases hC : CPU.getFlag cpu CPUFlags.CARRY <;>
      simp [CPU.opXCE, CPU.setFlag, hC, hE]
  · simp only [CPU.opXCE, hC, hE]
    simp +decide [CPU.setFlag, CPU.getFlag, CPUFlags.CARRY, CPUFlags.MEMORY_8BIT,
      CPUFlags.INDEX_8BIT, and_16_ne_iff, and_32_ne_iff, Nat.testBit_lor, Nat.testBit_ldiff]
  · simp only [CPU.opXCE, hC, hE]
    simp [CPU.setFlag, CPUFlags.CARRY]

/-- C4 witness: from native mode with `S = 0x1234` and Carry set, XCE enters
emulation mode with `S = 0x0134` and both width flags forced to 8-bit. -/
theorem xce_swap_and_mode_transitions_witness :
    ({ baseCPU with emulationMode := false, S := 0x1234, P := 0x01 } : CPU).emulationMode = false ∧
    CPU.getFlag { baseCPU with emulationMode := false, S := 0x1234, P := 0x01 } CPUFlags.CARRY = true ∧
    (CPU.opXCE { baseCPU with emulationMode := false, S := 0x1234, P := 0x01 }).emulationMode = true ∧
    (CPU.opXCE { baseCPU with emulationMode := false, S := 0x1234, P := 0x01 }).S = 0x0134 ∧
    CPU.getFlag (CPU.opXCE { baseCPU with emulationMode := false, S := 0x1234, P := 0x01 })
      CPUFlags.MEMORY_8BIT = true ∧
    CPU.getFlag (CPU.opXCE { baseCPU with emulationMode := false, S := 0x1234, P := 0x01 })
      CPUFlags.INDEX_8BIT = true := by
  have h := (xce_swap_and_mode_transitions
    { baseCPU with emulationMode := false, S := 0x1234, P := 0x01 }).2.1 (by decide) (by decide)
  exact ⟨by decide, by decide, h.1, h.2.2.2.1.trans (by decide), h.2.1, h.2.2.1⟩

set_option maxRecDepth 2048 in
theorem lor_256_range : ∀ a < 256, 0x0100 ≤ 0x0100 ||| a ∧ 0x0100 ||| a ≤ 0x01FF := by decide

/-- C8 (amended): in emulation mode the operations that explicitly load S
(TXS, and XCE when it lands in emulation mode) force it into
0x0100-0x01FF, but the stack primitives `push8`/`pop8` (and hence
`push16`/`pop16`, which iterate them) update S modulo 0x10000 without
pinning the high byte, so S can leave that range. -/
theorem emulation_stack_page_behavior (cpu : CPU) (v : ℕ)
    (hE : cpu.emulationMode = true) :
    (0x0100 ≤ (CPU.opTXS cpu).S ∧ (CPU.opTXS cpu).S ≤ 0x01FF) ∧
    (CPU.getFlag cpu CPUFlags.CARRY = true →
      0x0100 ≤ (CPU.opXCE cpu).S ∧ (CPU.opXCE cpu).S ≤ 0x01FF) ∧
    (CPU.push8 cpu v).S = (cpu.S + 0xFFFF) &&& 0xFFFF ∧
    (CPU.pop8 cpu).2.S = (cpu.S + 1) &&& 0xFFFF := by
  refine ⟨?_, fun hC => ?_, ?_, ?_⟩
  · have hS : (CPU.opTXS cpu).S = 0x0100 ||| (cpu.X &&& 0xFF) := by
      simp [CPU.opTXS, hE]
    rw [hS]
    exact lor_256_range (cpu.X &&& 0xFF) (by rw [and_FF_eq_mod]; omega)
  · have hS : (CPU.opXCE cpu).S = 0x0100 ||| (cpu.S &&& 0xFF) := by
      simp only [CPU.opXCE, hC, hE]
      simp [CPU.setFlag]
    rw [hS]
    exact lor_256_range (cpu.S &&& 0xFF) (by rw [and_FF_eq_mod]; omega)
  · simp [CPU.push8, CPU.write8]
  · simp [CPU.pop8, CPU.read8]

/-- C8 witness: with Carry set in emulation mode, TXS and XCE both land S
inside page 1, and a push from `S = 0x01FF` moves it to `0x01FE`. -/
theorem emulation_stack_page_behavior_witness :
    ({ baseCPU with P := 0x35 } : CPU).emulationMode = true ∧
    0x0100 ≤ (CPU.opTXS { baseCPU with P := 0x35 }).S ∧
    0x0100 ≤ (CPU.opXCE { baseCPU with P := 0x35 }).S ∧
    (CPU.push8 { baseCPU with P := 0x35 } 0xAB).S = 0x01FE := by
  have h := emulation_stack_page_behavior { baseCPU with P := 0x35 } 0xAB (by decide)
  exact ⟨by decide, h.1.1, (h.2.1 (by decide)).1, h.2.2.1.trans (by decide)⟩

/-- C8 counterexample: with `emulationMode = true` and `S = 0x0100`, one
`push8` drives S to `0x00FF`, outside the claimed 0x0100-0x01FF range. -/
theorem push8_leaves_page_one :
    ({ baseCPU with S := 0x0100 } : CPU).emulationMode = true ∧
    (CPU.push8 { baseCPU with S := 0x0100 } 0).S = 0x00FF ∧
    (CPU.push8 { baseCPU with S := 0x0100 } 0).S < 0x0100 := by decide

theorem read_write_wram_self (m : Memory) (hmap : m.mapperType = MapperType.lorom)
    (x v : ℕ) (hx : x < 0x2000) :
    Memory.read (Memory.write m x v) x = v &&& 0xFF := by
  rw [read_write_wram_low m hmap x x v hx hx]
  simp


/-- C9: for a CPU whose stack pointer region maps to bank-0 work RAM
(LoROM mapping, `1 ≤ S < 0x2000`, which covers the claim's example range
0x0100-0x01FF), `push8 v; pop8` returns `v` and restores S for every 8-bit
`v`, and `push16 v; pop16` returns `v` and restores S for every 16-bit
`v`. -/
theorem stack_round_trip (cpu : CPU) (v : ℕ)
    (hmap : cpu.memory.mapperType = MapperType.lorom)
    (hS1 : 1 ≤ cpu.S) (hS2 : cpu.S < 0x2000) :
    (v ≤ 0xFF →
      (CPU.pop8 (CPU.push8 cpu v)).1 = v ∧ (CPU.pop8 (CPU.push8 cpu v)).2.S = cpu.S) ∧
    (v ≤ 0xFFFF →
      (CPU.pop16 (CPU.push16 cpu v)).1 = v ∧ (CPU.pop16 (CPU.push16 cpu v)).2.S = cpu.S) := by
  have hpush8_S : ∀ c : CPU, ∀ w, (CPU.push8 c w).S = (c.S + 0xFFFF) &&& 0xFFFF := fun _ _ => rfl
  have hpush8_mem : ∀ c : CPU, ∀ w,
      (CPU.push8 c w).memory = Memory.write c.memory c.S ((w &&& 0xFF) &&& 0xFF) := fun _ _ => rfl
  have hpop8_val : ∀ c : CPU,
      (CPU.pop8 c).1 = Memory.read c.memory ((c.S + 1) &&& 0xFFFF) := fun _ => rfl
  have hpop8_S : ∀ c : CPU, (CPU.pop8 c).2.S = (c.S + 1) &&& 0xFFFF := fun _ => rfl
  have hpop8_mem : ∀ c : CPU, (CPU.pop8 c).2.memory = c.memory := fun _ => rfl
  have hSm1 : (cpu.S + 0xFFFF) &&& 0xFFFF = cpu.S - 1 := by
    rw [and_FFFF_eq_mod]; omega
  constructor
  · intro hv
    have hidx : ((CPU.push8 cpu v).S + 1) &&& 0xFFFF = cpu.S := by
      rw [hpush8_S, hSm1, and_FFFF_eq_mod]; omega
    constructor
    · rw [hpop8_val, hidx, hpush8_mem,
        read_write_wram_self cpu.memory hmap cpu.S ((v &&& 0xFF) &&& 0xFF) hS2]
      simp only [and_FF_eq_mod]
      omega
    · rw [hpop8_S, hidx]
  · intro hv
    -- push16 = push8 lo after push8 hi; name the intermediate states
    set hi := (v >>> 8) &&& 0xFF with hhi
    set lo := v &&& 0xFF with hlo
    have hp16 : CPU.push16 cpu v = CPU.push8 (CPU.push8 cpu hi) lo := rfl
    set c1 := CPU.push8 cpu hi with hc1
    set c2 := CPU.push8 c1 lo with hc2
    have hc1S : c1.S = cpu.S - 1 := by rw [hc1, hpush8_S, hSm1]
    have hc1mem : c1.memory = Memory.write cpu.memory cpu.S ((hi &&& 0xFF) &&& 0xFF) := by
      rw [hc1, hpush8_mem]
    have hc1mt : c1.memory.mapperType = MapperType.lorom := by
      rw [hc1mem, write_mapperType_eq, hmap]
    have hc2S : c2.S = (cpu.S - 1 + 0xFFFF) % 0x10000 := by
      rw [hc2, hpush8_S, hc1S, and_FFFF_eq_mod]
    have hc2mem : c2.memory = Memory.write c1.memory (cpu.S - 1) ((lo &&& 0xFF) &&& 0xFF) := by
      rw [hc2, hpush8_mem, hc1S]
    have hc2mt : c2.memory.mapperType = MapperType.lorom := by
      rw [hc2mem, write_mapperType_eq, hc1mt]
    -- first pop reads the low byte at S - 1
    have hidx1 : (c2.S + 1) &&& 0xFFFF = cpu.S - 1 := by
      rw [hc2S, and_FFFF_eq_mod]; omega
    have hread1 : Memory.read c2.memory (cpu.S - 1) = lo := by
      rw [hc2mem, read_write_wram_self c1.memory hc1mt (cpu.S - 1) _ (by omega)]
      rw [hlo]
      simp only [and_FF_eq_mod]
      omega
    -- second pop reads the high byte back at S
    have hidx2 : ((cpu.S - 1) + 1) &&& 0xFFFF = cpu.S := by
      rw [and_FFFF_eq_mod]; omega
    have hread2 : Memory.read c2.memory cpu.S = hi := by
      rw [hc2mem, read_write_wram_low c1.memory hc1mt (cpu.S - 1) cpu.S _ (by omega) hS2,
        if_neg (by omega), hc1mem,
        read_write_wram_self cpu.memory hmap cpu.S _ hS2]
      rw [hhi]
      simp only [and_FF_eq_mod, shiftRight8_eq]
      omega
    have hpop16_val : ∀ c : CPU,
        (CPU.pop16 c).1 = ((CPU.pop8 (CPU.pop8 c).2).1 <<< 8) ||| (CPU.pop8 c).1 :=
      fun _ => rfl
    have hpop16_S : ∀ c : CPU, (CPU.pop16 c).2.S = (CPU.pop8 (CPU.pop8 c).2).2.S :=
      fun _ => rfl
    have hfirst : (CPU.pop8 c2).1 = lo := by
      rw [hpop8_val, hidx1, hread1]
    have hsecond : (CPU.pop8 (CPU.pop8 c2).2).1 = hi := by
      rw [hpop8_val, hpop8_mem, hpop8_S, hidx1, hidx2, hread2]
    constructor
    · rw [hp16, hpop16_val, hfirst, hsecond, hhi, hlo]
      exact byte_recompose v (by omega)
    · rw [hp16, hpop16_S, hpop8_S, hpop8_S, hidx1, hidx2]


/-- C9 witness: on the base state (`S = 0x01FF`, LoROM work RAM), pushing
`0xAB` / `0xBEEF` and popping returns them and restores S. -/
theorem stack_round_trip_witness :
    baseCPU.memory.mapperType = MapperType.lorom ∧
    1 ≤ baseCPU.S ∧ baseCPU.S < 0x2000 ∧
    (CPU.pop8 (CPU.push8 baseCPU 0xAB)).1 = 0xAB ∧
    (CPU.pop8 (CPU.push8 baseCPU 0xAB)).2.S = baseCPU.S ∧
    (CPU.pop16 (CPU.push16 baseCPU 0xBEEF)).1 = 0xBEEF ∧
    (CPU.pop16 (CPU.push16 baseCPU 0xBEEF)).2.S = baseCPU.S := by
  have h8 := (stack_round_trip baseCPU 0xAB (by decide) (by decide) (by decide)).1 (by decide)
  have h16 := (stack_round_trip baseCPU 0xBEEF (by decide) (by decide) (by decide)).2 (by decide)
  exact ⟨by decide, by decide, by decide, h8.1, h8.2, h16.1, h16.2⟩

theorem getFlag_setFlag_self' (cpu : CPU) (f : ℕ) (b : Bool) (k : ℕ) (hf : f = 2 ^ k) :
    CPU.getFlag (CPU.setFlag cpu f b) f = b := by
  subst hf
  exact getFlag_setFlag_self cpu k b

theorem getFlag_setFlag_ne' (cpu : CPU) (f g : ℕ) (b : Bool) (j k : ℕ)
    (hf : f = 2 ^ j) (hg : g = 2 ^ k) (h : j ≠ k) :
    CPU.getFlag (CPU.setFlag cpu g b) f = CPU.getFlag cpu f := by
  subst hf
  subst hg
  exact getFlag_setFlag_ne cpu j k b h

theorem getFlag_cycles_update (c : CPU) (x f : ℕ) :
    CPU.getFlag { c with cycles := x } f = CPU.getFlag c f := rfl

theorem getFlag_A_update (c : CPU) (x f : ℕ) :
    CPU.getFlag { c with A := x } f = CPU.getFlag c f := rfl

theorem setFlag_A (c : CPU) (f : ℕ) (b : Bool) : (CPU.setFlag c f b).A = c.A := rfl

theorem getFlag_updateNZFlags_ne (c : CPU) (v f : ℕ) (k : ℕ)
    (hf : f = 2 ^ k) (h1 : k ≠ 1) (h7 : k ≠ 7) :
    CPU.getFlag (CPU.updateNZFlags c v) f = CPU.getFlag c f := by
  simp only [CPU.updateNZFlags, CPU.updateNegativeFlag, CPU.updateZeroFlag]
  rw [getFlag_setFlag_ne' _ f CPUFlags.NEGATIVE _ k 7 hf rfl h7,
    getFlag_setFlag_ne' _ f CPUFlags.ZERO _ k 1 hf rfl h1]

/-- Characterization of `CPU.ADC` exactly as the code computes it: the full
stored accumulator participates in the sum. -/
theorem ADC_char (cpu : CPU) (addr : ℕ) :
    (CPU.getFlag (CPU.ADC cpu addr) CPUFlags.CARRY =
      decide ((if CPU.getFlag cpu CPUFlags.MEMORY_8BIT then 0xFF else 0xFFFF) <
        cpu.A + (if CPU.getFlag cpu CPUFlags.MEMORY_8BIT
          then Memory.read cpu.memory addr
          else (Memory.read cpu.memory (addr + 1) <<< 8) ||| Memory.read cpu.memory addr)
          + (if CPU.getFlag cpu CPUFlags.CARRY then 1 else 0))) ∧
    (CPU.getFlag (CPU.ADC cpu addr) CPUFlags.OVERFLOW =
      decide ((cpu.A ^^^ (cpu.A + (if CPU.getFlag cpu CPUFlags.MEMORY_8BIT
          then Memory.read cpu.memory addr
          else (Memory.read cpu.memory (addr + 1) <<< 8) ||| Memory.read cpu.memory addr)
          + (if CPU.getFlag cpu CPUFlags.CARRY then 1 else 0))) &&&
        ((if CPU.getFlag cpu CPUFlags.MEMORY_8BIT
          then Memory.read cpu.memory addr
          else (Memory.read cpu.memory (addr + 1) <<< 8) ||| Memory.read cpu.memory addr) ^^^
         (cpu.A + (if CPU.getFlag cpu CPUFlags.MEMORY_8BIT
          then Memory.read cpu.memory addr
          else (Memory.read cpu.memory (addr + 1) <<< 8) ||| Memory.read cpu.memory addr)
          + (if CPU.getFlag cpu CPUFlags.CARRY then 1 else 0))) &&&
        (if CPU.getFlag cpu CPUFlags.MEMORY_8BIT then 0x80 else 0x8000) ≠ 0)) ∧
    (CPU.ADC cpu addr).A =
      (cpu.A + (if CPU.getFlag cpu CPUFlags.MEMORY_8BIT
        then Memory.read cpu.memory addr
        else (Memory.read cpu.memory (addr + 1) <<< 8) ||| Memory.read cpu.memory addr)
        + (if CPU.getFlag cpu CPUFlags.CARRY then 1 else 0)) &&&
      (if CPU.getFlag cpu CPUFlags.MEMORY_8BIT then 0xFF else 0xFFFF) := by
  cases hM : CPU.getFlag cpu CPUFlags.MEMORY_8BIT <;>
    cases hC : CPU.getFlag cpu CPUFlags.CARRY <;>
    simp only [CPU.ADC, CPU.read8, CPU.read16, hM, hC, getFlag_cycles_update, setFlag_A,
      if_true, if_false, Bool.false_eq_true, Bool.true_eq_false] <;>
    refine ⟨?_, ?_, rfl⟩ <;>
    first
      | rw [getFlag_updateNZFlags_ne _ _ CPUFlags.CARRY 0 rfl (by norm_num) (by norm_num),
          getFlag_A_update,
          getFlag_setFlag_ne' _ CPUFlags.CARRY CPUFlags.OVERFLOW _ 0 6 rfl rfl (by norm_num),
          getFlag_setFlag_self' _ CPUFlags.CARRY _ 0 rfl]
      | rw [getFlag_updateNZFlags_ne _ _ CPUFlags.OVERFLOW 6 rfl (by norm_num) (by norm_num),
          getFlag_A_update,
          getFlag_setFlag_self' _ CPUFlags.OVERFLOW _ 6 rfl]

theorem setFlag_memory (c : CPU) (f : ℕ) (b : Bool) : (CPU.setFlag c f b).memory = c.memory := rfl


/-- C2 (amended): provided the stored accumulator value does not exceed the
active-width mask (so that "the accumulator at the active width" and the
stored `A` coincide), ADC adds the operand and carry-in to the accumulator
at the active width, sets Carry iff the width-wide intermediate sum exceeds
the mask (0xFF / 0xFFFF), computes Overflow by the sign-bit-mismatch
formula at the active width's sign bit (0x80 / 0x8000), stores the masked
sum in A, and the Decimal flag affects none of A, Carry, Overflow. -/
theorem adc_active_width (cpu : CPU) (addr : ℕ) (mask signBit value carryIn : ℕ)
    (hmask : mask = (if CPU.getFlag cpu CPUFlags.MEMORY_8BIT then 0xFF else 0xFFFF))
    (hsign : signBit = (if CPU.getFlag cpu CPUFlags.MEMORY_8BIT then 0x80 else 0x8000))
    (hvalue : value = (if CPU.getFlag cpu CPUFlags.MEMORY_8BIT
        then Memory.read cpu.memory addr
        else (Memory.read cpu.memory (addr + 1) <<< 8) ||| Memory.read cpu.memory addr))
    (hcarry : carryIn = (if CPU.getFlag cpu CPUFlags.CARRY then 1 else 0))
    (hA : cpu.A ≤ mask) :
    CPU.getFlag (CPU.ADC cpu addr) CPUFlags.CARRY =
      decide (mask < (cpu.A &&& mask) + value + carryIn) ∧
    CPU.getFlag (CPU.ADC cpu addr) CPUFlags.OVERFLOW =
      decide ((((cpu.A &&& mask) ^^^ ((cpu.A &&& mask) + value + carryIn)) &&&
        (value ^^^ ((cpu.A &&& mask) + value + carryIn)) &&& signBit) ≠ 0) ∧
    (CPU.ADC cpu addr).A = ((cpu.A &&& mask) + value + carryIn) &&& mask ∧
    (∀ d : Bool,
      (CPU.ADC (CPU.setFlag cpu CPUFlags.DECIMAL d) addr).A = (CPU.ADC cpu addr).A ∧
      CPU.getFlag (CPU.ADC (CPU.setFlag cpu CPUFlags.DECIMAL d) addr) CPUFlags.CARRY =
        CPU.getFlag (CPU.ADC cpu addr) CPUFlags.CARRY ∧
      CPU.getFlag (CPU.ADC (CPU.setFlag cpu CPUFlags.DECIMAL d) addr) CPUFlags.OVERFLOW =
        CPU.getFlag (CPU.ADC cpu addr) CPUFlags.OVERFLOW) := by
  subst hmask
  subst hsign
  subst hvalue
  subst hcarry
  have hAm : cpu.A &&& (if CPU.getFlag cpu CPUFlags.MEMORY_8BIT then 0xFF else 0xFFFF) = cpu.A := by
    cases hM : CPU.getFlag cpu CPUFlags.MEMORY_8BIT <;>
      simp only [hM, if_true, if_false, Bool.false_eq_true] at hA ⊢
    · rw [and_FFFF_eq_mod]
      omega
    · rw [and_FF_eq_mod]
      omega
  rw [hAm]
  obtain ⟨h1, h2, h3⟩ := ADC_char cpu addr
  refine ⟨h1, h2, h3, fun d => ?_⟩
  obtain ⟨g1, g2, g3⟩ := ADC_char (CPU.setFlag cpu CPUFlags.DECIMAL d) addr
  have hM' : CPU.getFlag (CPU.setFlag cpu CPUFlags.DECIMAL d) CPUFlags.MEMORY_8BIT =
      CPU.getFlag cpu CPUFlags.MEMORY_8BIT :=
    getFlag_setFlag_ne' cpu CPUFlags.MEMORY_8BIT CPUFlags.DECIMAL d 5 3 rfl rfl (by norm_num)
  have hC' : CPU.getFlag (CPU.setFlag cpu CPUFlags.DECIMAL d) CPUFlags.CARRY =
      CPU.getFlag cpu CPUFlags.CARRY :=
    getFlag_setFlag_ne' cpu CPUFlags.CARRY CPUFlags.DECIMAL d 0 3 rfl rfl (by norm_num)
  simp only [hM', hC', setFlag_A, setFlag_memory] at g1 g2 g3
  exact ⟨g3.trans h3.symm, g1.trans h1.symm, g2.trans h2.symm⟩


/-- C2 witness: in 8-bit mode with `A = 0x45`, carry clear and a zero
operand byte, ADC leaves `A = 0x45` with Carry clear. -/
theorem adc_active_width_witness :
    ({ baseCPU with A := 0x45 } : CPU).A ≤ 0xFF ∧
    (CPU.ADC { baseCPU with A := 0x45 } 0).A = 0x45 ∧
    CPU.getFlag (CPU.ADC { baseCPU with A := 0x45 } 0) CPUFlags.CARRY = false := by
  have h := adc_active_width { baseCPU with A := 0x45 } 0 0xFF 0x80 0 0
    (by decide) (by decide) (by decide) (by decide) (by decide)
  exact ⟨by decide, h.2.2.1.trans (by decide), h.1.trans (by decide)⟩

/-- C2 counterexample: in 8-bit mode with the stored `A = 0x100`, operand 0
and carry-in 0, the width-wide sum `(A &&& 0xFF) + 0 + 0 = 0` does not
exceed `0xFF`, yet the code sets Carry (the full 16-bit `A` participates in
the sum), so the claim as stated over every CPU state is false. -/
theorem adc_carry_uses_full_A :
    CPU.getFlag { baseCPU with A := 0x100, P := 0x20 } CPUFlags.MEMORY_8BIT = true ∧
    CPU.getFlag { baseCPU with A := 0x100, P := 0x20 } CPUFlags.CARRY = false ∧
    (({ baseCPU with A := 0x100, P := 0x20 } : CPU).A &&& 0xFF) +
      Memory.read zeroMemory 0 + 0 ≤ 0xFF ∧
    CPU.getFlag (CPU.ADC { baseCPU with A := 0x100, P := 0x20 } 0) CPUFlags.CARRY = true ∧
    CPU.getFlag (CPU.ADC { baseCPU with A := 0x100, P := 0x20 } 0) CPUFlags.CARRY ≠
      decide (0xFF < (({ baseCPU with A := 0x100, P := 0x20 } : CPU).A &&& 0xFF) +
        Memory.read zeroMemory 0 +
        (if CPU.getFlag { baseCPU with A := 0x100, P := 0x20 } CPUFlags.CARRY then 1 else 0)) := by
  have h := (ADC_char { baseCPU with A := 0x100, P := 0x20 } 0).1
  refine ⟨by decide, by decide, by decide, h.trans (by decide), ?_⟩
  rw [h]
  decide

theorem read_write_rom_lorom (m : Memory) (hm : m.mapperType = MapperType.lorom) (a v b : ℕ)
    (hb : (Memory.mapLoROM b).type = Region.rom) :
    Memory.read (Memory.write m a v) b = Memory.read m b := by
  apply read_write_of_rom
  unfold Memory.mapper
  rw [hm]
  exact hb

theorem read16_congr (m m' : Memory) (b : ℕ)
    (h1 : Memory.read m' b = Memory.read m b)
    (h2 : Memory.read m' (b + 1) = Memory.read m (b + 1)) :
    Memory.read16 m' b = Memory.read16 m b := by
  unfold Memory.read16
  rw [h1, h2]

theorem write8_P (c : CPU) (a v : ℕ) : (CPU.write8 c a v).P = c.P := rfl

theorem write8_PC (c : CPU) (a v : ℕ) : (CPU.write8 c a v).PC = c.PC := rfl

theorem write8_PBR (c : CPU) (a v : ℕ) : (CPU.write8 c a v).PBR = c.PBR := rfl

theorem write8_S (c : CPU) (a v : ℕ) : (CPU.write8 c a v).S = c.S := rfl

theorem write8_em (c : CPU) (a v : ℕ) : (CPU.write8 c a v).emulationMode = c.emulationMode := rfl

theorem write8_cycles (c : CPU) (a v : ℕ) : (CPU.write8 c a v).cycles = c.cycles + 1 := rfl

theorem write8_memory (c : CPU) (a v : ℕ) :
    (CPU.write8 c a v).memory = Memory.write c.memory a (v &&& 0xFF) := rfl

theorem updS_P (c : CPU) (s : ℕ) : ({ c with S := s } : CPU).P = c.P := rfl

theorem updS_PC (c : CPU) (s : ℕ) : ({ c with S := s } : CPU).PC = c.PC := rfl

theorem updS_PBR (c : CPU) (s : ℕ) : ({ c with S := s } : CPU).PBR = c.PBR := rfl

theorem updS_S (c : CPU) (s : ℕ) : ({ c with S := s } : CPU).S = s := rfl

theorem updS_em (c : CPU) (s : ℕ) : ({ c with S := s } : CPU).emulationMode = c.emulationMode := rfl

theorem updS_cycles (c : CPU) (s : ℕ) : ({ c with S := s } : CPU).cycles = c.cycles := rfl

theorem updS_memory (c : CPU) (s : ℕ) : ({ c with S := s } : CPU).memory = c.memory := rfl

theorem push8_S (c : CPU) (w : ℕ) : (CPU.push8 c w).S = (c.S + 0xFFFF) &&& 0xFFFF := by
  simp only [CPU.push8]
  rw [updS_S, write8_S]

theorem push8_memory (c : CPU) (w : ℕ) :
    (CPU.push8 c w).memory = Memory.write c.memory c.S ((w &&& 0xFF) &&& 0xFF) := by
  simp only [CPU.push8]
  rw [updS_memory, write8_memory]

theorem push8_P (c : CPU) (w : ℕ) : (CPU.push8 c w).P = c.P := by
  simp only [CPU.push8]
  rw [updS_P, write8_P]

theorem push8_PC (c : CPU) (w : ℕ) : (CPU.push8 c w).PC = c.PC := by
  simp only [CPU.push8]
  rw [updS_PC, write8_PC]

theorem push8_PBR (c : CPU) (w : ℕ) : (CPU.push8 c w).PBR = c.PBR := by
  simp only [CPU.push8]
  rw [updS_PBR, write8_PBR]

theorem push8_em (c : CPU) (w : ℕ) : (CPU.push8 c w).emulationMode = c.emulationMode := by
  simp only [CPU.push8]
  rw [updS_em, write8_em]

theorem push8_cycles (c : CPU) (w : ℕ) : (CPU.push8 c w).cycles = c.cycles + 1 := by
  simp only [CPU.push8]
  rw [updS_cycles, write8_cycles]

theorem push16_eq (c : CPU) (v : ℕ) :
    CPU.push16 c v = CPU.push8 (CPU.push8 c ((v >>> 8) &&& 0xFF)) (v &&& 0xFF) := rfl

theorem setFlag_S (c : CPU) (f : ℕ) (b : Bool) : (CPU.setFlag c f b).S = c.S := rfl

theorem setFlag_cycles (c : CPU) (f : ℕ) (b : Bool) : (CPU.setFlag c f b).cycles = c.cycles := rfl

theorem setFlag_em (c : CPU) (f : ℕ) (b : Bool) :
    (CPU.setFlag c f b).emulationMode = c.emulationMode := rfl

theorem setFlag_P_true (c : CPU) (f : ℕ) : (CPU.setFlag c f true).P = c.P ||| f := rfl

theorem updPCPBR_P (c : CPU) (pc pbr : ℕ) :
    ({ c with PC := pc, PBR := pbr } : CPU).P = c.P := rfl

theorem updPCPBR_S (c : CPU) (pc pbr : ℕ) :
    ({ c with PC := pc, PBR := pbr } : CPU).S = c.S := rfl

theorem updPCPBR_PC (c : CPU) (pc pbr : ℕ) :
    ({ c with PC := pc, PBR := pbr } : CPU).PC = pc := rfl

theorem updPCPBR_PBR (c : CPU) (pc pbr : ℕ) :
    ({ c with PC := pc, PBR := pbr } : CPU).PBR = pbr := rfl

theorem updPCPBR_cycles (c : CPU) (pc pbr : ℕ) :
    ({ c with PC := pc, PBR := pbr } : CPU).cycles = c.cycles := rfl

theorem updPCPBR_memory (c : CPU) (pc pbr : ℕ) :
    ({ c with PC := pc, PBR := pbr } : CPU).memory = c.memory := rfl

theorem updCyc_P (c : CPU) (n : ℕ) : ({ c with cycles := n } : CPU).P = c.P := rfl

theorem updCyc_S (c : CPU) (n : ℕ) : ({ c with cycles := n } : CPU).S = c.S := rfl

theorem updCyc_PC (c : CPU) (n : ℕ) : ({ c with cycles := n } : CPU).PC = c.PC := rfl

theorem updCyc_PBR (c : CPU) (n : ℕ) : ({ c with cycles := n } : CPU).PBR = c.PBR := rfl

theorem updCyc_cycles (c : CPU) (n : ℕ) : ({ c with cycles := n } : CPU).cycles = n := rfl

theorem updCyc_memory (c : CPU) (n : ℕ) : ({ c with cycles := n } : CPU).memory = c.memory := rfl


set_option maxHeartbeats 1000000 in
/-- C1 (amended): with an NMI pending and the stack inside the LoROM bank-0
work-RAM window, one `step()` services the interrupt without fetching an
instruction: it pushes PBR, the two PC bytes and P (four stack bytes, S
decreasing by 4 modulo 0x10000, the bytes readable at S, S-1, S-2, S-3),
sets the IRQ-disable flag, clears `nmiPending`, loads PC from the 16-bit
little-endian NMI vector (0xFFFA in emulation mode, 0xFFEA in native mode),
zeroes PBR, and consumes exactly 11 cycles (the fixed 7-cycle charge plus
one bus cycle per pushed byte). -/
theorem nmi_step_services (cpu : CPU)
    (hnmi : cpu.nmiPending = true)
    (hmap : cpu.memory.mapperType = MapperType.lorom)
    (hS1 : 3 ≤ cpu.S) (hS2 : cpu.S < 0x2000) :
    (CPU.step cpu).1 = 11 ∧
    (CPU.step cpu).2.nmiPending = false ∧
    CPU.getFlag (CPU.step cpu).2 CPUFlags.IRQ_DISABLE = true ∧
    (CPU.step cpu).2.PBR = 0 ∧
    (CPU.step cpu).2.PC =
      Memory.read16 cpu.memory (if cpu.emulationMode then 0xFFFA else 0xFFEA) ∧
    (CPU.step cpu).2.S = (cpu.S + 0xFFFC) &&& 0xFFFF ∧
    Memory.read (CPU.step cpu).2.memory cpu.S = cpu.PBR &&& 0xFF ∧
    Memory.read (CPU.step cpu).2.memory (cpu.S - 1) = (cpu.PC >>> 8) &&& 0xFF ∧
    Memory.read (CPU.step cpu).2.memory (cpu.S - 2) = cpu.PC &&& 0xFF ∧
    Memory.read (CPU.step cpu).2.memory (cpu.S - 3) = cpu.P &&& 0xFF := by
  have hstep : CPU.step cpu =
      ((CPU.handleNMI cpu).cycles - cpu.cycles,
        { CPU.handleNMI cpu with nmiPending := false }) := by
    simp [CPU.step, hnmi]
  -- address arithmetic
  have a1 : (cpu.S + 0xFFFF) &&& 0xFFFF = cpu.S - 1 := by
    rw [and_FFFF_eq_mod]; omega
  have a2 : ((cpu.S - 1) + 0xFFFF) &&& 0xFFFF = cpu.S - 2 := by
    rw [and_FFFF_eq_mod]; omega
  have a3 : ((cpu.S - 2) + 0xFFFF) &&& 0xFFFF = cpu.S - 3 := by
    rw [and_FFFF_eq_mod]; omega
  have a4 : ((cpu.S - 3) + 0xFFFF) &&& 0xFFFF = (cpu.S + 0xFFFC) &&& 0xFFFF := by
    rw [and_FFFF_eq_mod, and_FFFF_eq_mod]; omega
  -- projections of handleNMI, computed by rewriting, not by deep unfolding
  have hcyc : (CPU.handleNMI cpu).cycles = cpu.cycles + 1 + 1 + 1 + 1 + 7 := by
    simp only [CPU.handleNMI, push16_eq, push8_PC, push8_P, updCyc_cycles, updPCPBR_cycles,
      setFlag_cycles, push8_cycles]
  have hPBR : (CPU.handleNMI cpu).PBR = 0 := by
    simp only [CPU.handleNMI, updCyc_PBR, updPCPBR_PBR]
  have hP : (CPU.handleNMI cpu).P = cpu.P ||| CPUFlags.IRQ_DISABLE := by
    simp only [CPU.handleNMI, push16_eq, push8_PC, push8_P, updCyc_P, updPCPBR_P, setFlag_P_true]
  have hSr : (CPU.handleNMI cpu).S = (cpu.S + 0xFFFC) &&& 0xFFFF := by
    simp only [CPU.handleNMI, push16_eq, push8_PC, push8_P, updCyc_S, updPCPBR_S, setFlag_S,
      push8_S]
    rw [a1, a2, a3, a4]
  have hmem : (CPU.handleNMI cpu).memory =
      Memory.write
        (Memory.write
          (Memory.write (Memory.write cpu.memory cpu.S ((cpu.PBR &&& 0xFF) &&& 0xFF))
            (cpu.S - 1) ((((cpu.PC >>> 8) &&& 0xFF) &&& 0xFF) &&& 0xFF))
          (cpu.S - 2) (((cpu.PC &&& 0xFF) &&& 0xFF) &&& 0xFF))
        (cpu.S - 3) ((cpu.P &&& 0xFF) &&& 0xFF) := by
    simp only [CPU.handleNMI, push16_eq, push8_PC, push8_P, updCyc_memory, updPCPBR_memory,
      setFlag_memory, push8_memory, push8_S]
    rw [a1, a2, a3]
  have hPC : (CPU.handleNMI cpu).PC =
      Memory.read16 (CPU.handleNMI cpu).memory
        (if cpu.emulationMode then 0xFFFA else 0xFFEA) := by
    have hmemeq : (CPU.handleNMI cpu).memory =
        (CPU.setFlag (CPU.push8 (CPU.push16 (CPU.push8 cpu cpu.PBR) (CPU.push8 cpu cpu.PBR).PC)
          (CPU.push16 (CPU.push8 cpu cpu.PBR) (CPU.push8 cpu cpu.PBR).PC).P)
          CPUFlags.IRQ_DISABLE true).memory := by
      simp only [CPU.handleNMI, updCyc_memory, updPCPBR_memory]
    have hemeq : (CPU.setFlag (CPU.push8 (CPU.push16 (CPU.push8 cpu cpu.PBR)
          (CPU.push8 cpu cpu.PBR).PC)
          (CPU.push16 (CPU.push8 cpu cpu.PBR) (CPU.push8 cpu cpu.PBR).PC).P)
          CPUFlags.IRQ_DISABLE true).emulationMode = cpu.emulationMode := by
      simp only [setFlag_em, push16_eq, push8_em]
    rw [hmemeq]
    simp only [CPU.handleNMI, updCyc_PC, updPCPBR_PC, hemeq]
  -- mapper-kind preservation along the four writes
  have mt1 : (Memory.write cpu.memory cpu.S ((cpu.PBR &&& 0xFF) &&& 0xFF)).mapperType
      = MapperType.lorom := by rw [write_mapperType_eq, hmap]
  have mt2 : (Memory.write (Memory.write cpu.memory cpu.S ((cpu.PBR &&& 0xFF) &&& 0xFF))
        (cpu.S - 1) ((((cpu.PC >>> 8) &&& 0xFF) &&& 0xFF) &&& 0xFF)).mapperType
      = MapperType.lorom := by rw [write_mapperType_eq, mt1]
  have mt3 : (Memory.write (Memory.write (Memory.write cpu.memory cpu.S
          ((cpu.PBR &&& 0xFF) &&& 0xFF))
        (cpu.S - 1) ((((cpu.PC >>> 8) &&& 0xFF) &&& 0xFF) &&& 0xFF))
        (cpu.S - 2) (((cpu.PC &&& 0xFF) &&& 0xFF) &&& 0xFF)).mapperType
      = MapperType.lorom := by rw [write_mapperType_eq, mt2]
  -- reading any ROM-mapped vector byte is unaffected by the four writes
  have hvecread : ∀ b : ℕ, (Memory.mapLoROM b).type = Region.rom →
      Memory.read (CPU.handleNMI cpu).memory b = Memory.read cpu.memory b := by
    intro b hb
    rw [hmem, read_write_rom_lorom _ mt3 _ _ _ hb, read_write_rom_lorom _ mt2 _ _ _ hb,
      read_write_rom_lorom _ mt1 _ _ _ hb, read_write_rom_lorom _ hmap _ _ _ hb]
  have hstepmem : (CPU.step cpu).2.memory = (CPU.handleNMI cpu).memory := by
    rw [hstep]
  have hstepS : (CPU.step cpu).2.S = (CPU.handleNMI cpu).S := by rw [hstep]
  have hstepP : (CPU.step cpu).2.P = (CPU.handleNMI cpu).P := by rw [hstep]
  have hstepPC : (CPU.step cpu).2.PC = (CPU.handleNMI cpu).PC := by rw [hstep]
  have hstepPBR : (CPU.step cpu).2.PBR = (CPU.handleNMI cpu).PBR := by rw [hstep]
  refine ⟨?_, ?_, ?_, ?_, ?_, ?_, ?_, ?_, ?_, ?_⟩
  · rw [hstep]
    simp only [hcyc]
    omega
  · rw [hstep]
  · unfold CPU.getFlag
    rw [hstepP, hP]
    simp +decide [CPUFlags.IRQ_DISABLE, and_4_ne_iff, Nat.testBit_lor]
  · rw [hstepPBR, hPBR]
  · rw [hstepPC, hPC]
    cases hE : cpu.emulationMode <;> simp only [hE, if_true, if_false, Bool.false_eq_true]
    · exact read16_congr _ _ _ (hvecread 0xFFEA (by decide)) (hvecread 0xFFEB (by decide))
    · exact read16_congr _ _ _ (hvecread 0xFFFA (by decide)) (hvecread 0xFFFB (by decide))
  · rw [hstepS, hSr]
  · rw [hstepmem, hmem]
    rw [read_write_wram_low _ mt3 _ _ _ (by omega) (by omega), if_neg (by omega),
      read_write_wram_low _ mt2 _ _ _ (by omega) (by omega), if_neg (by omega),
      read_write_wram_low _ mt1 _ _ _ (by omega) (by omega), if_neg (by omega),
      read_write_wram_self _ hmap _ _ (by omega)]
    simp only [and_FF_eq_mod]
    omega
  · rw [hstepmem, hmem]
    rw [read_write_wram_low _ mt3 _ _ _ (by omega) (by omega), if_neg (by omega),
      read_write_wram_low _ mt2 _ _ _ (by omega) (by omega), if_neg (by omega),
      read_write_wram_self _ mt1 _ _ (by omega)]
    simp only [and_FF_eq_mod]
    omega
  · rw [hstepmem, hmem]
    rw [read_write_wram_low _ mt3 _ _ _ (by omega) (by omega), if_neg (by omega),
      read_write_wram_self _ mt2 _ _ (by omega)]
    simp only [and_FF_eq_mod]
    omega
  · rw [hstepmem, hmem]
    rw [read_write_wram_self _ mt3 _ _ (by omega)]
    simp only [and_FF_eq_mod]
    omega

/-- C1 counterexample: from the reset state with an NMI pending
(`S = 0x01FF`), `step()` consumes 11 cycles, not the claimed 7, and S drops
by 4 to `0x01FB`, not by 3 to `0x01FC`. -/
theorem nmi_step_cost_counterexample :
    ({ baseCPU with nmiPending := true } : CPU).nmiPending = true ∧
    ({ baseCPU with nmiPending := true } : CPU).S = 0x01FF ∧
    (CPU.step { baseCPU with nmiPending := true }).1 = 11 ∧
    (CPU.step { baseCPU with nmiPending := true }).1 ≠ 7 ∧
    (CPU.step { baseCPU with nmiPending := true }).2.S = 0x01FB ∧
    (CPU.step { baseCPU with nmiPending := true }).2.S ≠ 0x01FC := by decide

/-- C1 witness: the amended statement holds at the concrete pending-NMI
state. -/
theorem nmi_step_services_witness :
    ({ baseCPU with nmiPending := true } : CPU).nmiPending = true ∧
    (CPU.step { baseCPU with nmiPending := true }).1 = 11 ∧
    (CPU.step { baseCPU with nmiPending := true }).2.nmiPending = false ∧
    CPU.getFlag (CPU.step { baseCPU with nmiPending := true }).2 CPUFlags.IRQ_DISABLE = true ∧
    (CPU.step { baseCPU with nmiPending := true }).2.S = 0x01FB := by
  have h := nmi_step_services { baseCPU with nmiPending := true } (by decide) (by decide)
    (by decide) (by decide)
  exact ⟨by decide, h.1, h.2.1, h.2.2.1, (h.2.2.2.2.2.1).trans (by decide)⟩
